import Mathlib

/-!
# Verification of the Driver statistics model (fantasy-f1)

Shallow embedding of `src/app/models/driver.py` (class `Driver`).

Modelling conventions:
* Python ints are `ℤ` (counters that are only ever incremented are `ℕ`),
  numeric points/prices are `ℚ`, and the consistency metric — the one value
  computed with a square root — is `ℝ`.
* The optional race position (`None` in Python) is `Option ℤ`.
* The `stats` dictionary of the Python class is flattened into fields
  `races_completed`, `races_dnf`, `points_history`, `position_history`,
  `total_races`.
* Python methods that can raise a `TypeError` (summing a position history
  that contains `None`) are modelled with an explicit outcome: the returned
  `Driver` is the object state at the moment the method returns or raises
  (Python mutations performed before the raise persist), and a `Bool` /
  `Option` component records whether the exception was raised.
-/

namespace FantasyF1

/-- State of a Python `Driver` object: identity attributes, cumulative
counters, derived metrics, last-race snapshot and the flattened `stats`
dictionary. -/
@[ext]
structure Driver where
  id : ℤ
  name : String
  number : ℤ
  team : String
  nationality : String
  price : ℚ
  season : Option ℤ
  season_points : ℚ
  wins : ℕ
  podiums : ℕ
  pole_positions : ℕ
  reliability : ℚ
  consistency : ℝ
  average_position : ℚ
  last_race_position : Option ℤ
  last_race_points : ℚ
  races_completed : ℕ
  races_dnf : ℕ
  points_history : List ℚ
  position_history : List (Option ℤ)
  total_races : ℕ

/-- Constructor `Driver.__init__`: all counters zero, histories empty,
`last_race_position = None`. -/
def initDriver (id : ℤ) (name : String) (number : ℤ) (team : String)
    (nationality : String) (price : ℚ) (season : Option ℤ) : Driver :=
  { id := id
    name := name
    number := number
    team := team
    nationality := nationality
    price := price
    season := season
    season_points := 0
    wins := 0
    podiums := 0
    pole_positions := 0
    reliability := 0
    consistency := 0
    average_position := 0
    last_race_position := none
    last_race_points := 0
    races_completed := 0
    races_dnf := 0
    points_history := []
    position_history := []
    total_races := 0 }

/-- Method `Driver.add_points`: `season_points += points`;
append to `points_history`. -/
def Driver.add_points (d : Driver) (points : ℚ) : Driver :=
  { d with
    season_points := d.season_points + points
    points_history := d.points_history ++ [points] }

/-- Method `Driver.add_pole_position`: increment `pole_positions`. -/
def Driver.add_pole_position (d : Driver) : Driver :=
  { d with pole_positions := d.pole_positions + 1 }

/-- Method `Driver.calculate_reliability`: if `total_races > 0` set
`reliability = races_completed / total_races`, else leave it unchanged. -/
def Driver.calculate_reliability (d : Driver) : Driver :=
  if d.total_races > 0 then
    { d with reliability := (d.races_completed : ℚ) / (d.total_races : ℚ) }
  else d

/-- The Python truthiness test `position and position <= 3` guarding the
podium increment: `None` and `0` are falsy, every other integer is compared
with 3. -/
def podiumCheck : Option ℤ → Bool
  | none => false
  | some p => decide (p ≠ 0) && decide (p ≤ 3)

/-- The win test `position == 1` (false for `None`). -/
def winCheck (pos : Option ℤ) : Bool :=
  pos == some 1

/-- Python `sum` over the position history: returns the list of integers if
no entry is `None`, and `none` when the sum raises `TypeError` (some entry
is `None`). -/
def allSome : List (Option ℤ) → Option (List ℤ)
  | [] => some []
  | none :: _ => none
  | some x :: rest => (allSome rest).map (fun xs => x :: xs)

/-- Body of `Driver.calculate_consistency` as a function of the position
history: `some c` is the computed consistency, `none` means the method
raises `TypeError` (summing a history of length ≥ 2 containing `None`).
Mirrors the source order: the length guard first, then mean (the raise
point), population variance, `variance ** 0.5`, the zero-mean guard, and
`max(0.0, 1.0 - cv / 10.0)`. -/
noncomputable def consistencyOfHistory (l : List (Option ℤ)) : Option ℝ :=
  if l.length < 2 then some 0
  else
    match allSome l with
    | none => none
    | some positions =>
      let mean_position : ℚ := ((positions.sum : ℚ)) / (positions.length : ℚ)
      let variance : ℚ :=
        (positions.map (fun x => ((x : ℚ) - mean_position) ^ 2)).sum /
          (positions.length : ℚ)
      let std_dev : ℝ := Real.sqrt (variance : ℝ)
      if mean_position = 0 then some 0
      else some (max 0 (1 - (std_dev / (mean_position : ℝ)) / 10))

/-- Method `Driver.calculate_consistency`: store the computed value on success;
on `TypeError` the object is unchanged and the `Bool` flag is `true`. -/
noncomputable def Driver.calculate_consistency (d : Driver) : Driver × Bool :=
  match consistencyOfHistory d.position_history with
  | some c => ({ d with consistency := c }, false)
  | none => (d, true)

/-- Method `Driver.set_race_result`, step by step as in the source: last-race
snapshot, history append, `total_races` increment, DNF/completed counter,
podium and win checks, `add_points`, `calculate_reliability`,
`calculate_consistency`.  The `Bool` flag records whether the final
consistency recomputation raised `TypeError` (all earlier mutations
persist in that case, as in Python). -/
noncomputable def Driver.set_race_result (d : Driver) (position : Option ℤ)
    (points : ℚ) (dnf : Bool) : Driver × Bool :=
  let d1 : Driver :=
    { d with
      last_race_position := position
      last_race_points := points
      position_history := d.position_history ++ [position]
      total_races := d.total_races + 1 }
  let d2 : Driver :=
    if dnf then { d1 with races_dnf := d1.races_dnf + 1 }
    else { d1 with races_completed := d1.races_completed + 1 }
  let d3 : Driver :=
    if podiumCheck position then { d2 with podiums := d2.podiums + 1 } else d2
  let d4 : Driver :=
    if winCheck position then { d3 with wins := d3.wins + 1 } else d3
  let d5 : Driver := d4.add_points points
  let d6 : Driver := d5.calculate_reliability
  d6.calculate_consistency

/-- Method `Driver.get_average_position`: `0.0` for an empty history; otherwise
mean of the history, raising `TypeError` (`none`, object unchanged) when
the history contains `None`. -/
def Driver.get_average_position (d : Driver) : Driver × Option ℚ :=
  if d.position_history = [] then ({ d with average_position := 0 }, some 0)
  else
    match allSome d.position_history with
    | none => (d, none)
    | some positions =>
      let avg : ℚ := (positions.sum : ℚ) / (positions.length : ℚ)
      ({ d with average_position := avg }, some avg)

/-- Python `round` to an integer: round half to even (bankers rounding),
over any ordered field with a floor. -/
noncomputable def pyRoundInt (x : ℝ) : ℤ :=
  open Classical in
  let f : ℤ := ⌊x⌋
  if x - (f : ℝ) < 1 / 2 then f
  else if (1 : ℝ) / 2 < x - (f : ℝ) then f + 1
  else if Even f then f else f + 1

/-- Python `round(x, n)` on the real model of a float. -/
noncomputable def pyRound (x : ℝ) (n : ℕ) : ℝ :=
  (pyRoundInt (x * 10 ^ n) : ℝ) / 10 ^ n

/-- Rational version of Python `round(x, n)` for the fields tracked
exactly as rationals. -/
noncomputable def pyRoundQ (x : ℚ) (n : ℕ) : ℚ :=
  (pyRoundInt ((x : ℝ) * 10 ^ n)) / 10 ^ n

/-- The dictionary returned by `Driver.to_dict` (the `stats` sub-dictionary
flattened, as in `Driver`). -/
structure DriverDict where
  id : ℤ
  name : String
  number : ℤ
  team : String
  nationality : String
  price : ℚ
  season : Option ℤ
  season_points : ℚ
  wins : ℕ
  podiums : ℕ
  pole_positions : ℕ
  reliability : ℚ
  consistency : ℝ
  average_position : ℚ
  last_race_position : Option ℤ
  last_race_points : ℚ
  races_completed : ℕ
  races_dnf : ℕ
  total_races : ℕ
  points_history : List ℚ
  position_history : List (Option ℤ)

/-- The dictionary literal of `Driver.to_dict`, built from the object
state after the `get_average_position` call and the average it returned.
`reliability` and `consistency` are rounded to 3 decimal places and the
average position to 2. -/
noncomputable def dictOf (d1 : Driver) (avg : ℚ) : DriverDict :=
  { id := d1.id
    name := d1.name
    number := d1.number
    team := d1.team
    nationality := d1.nationality
    price := d1.price
    season := d1.season
    season_points := d1.season_points
    wins := d1.wins
    podiums := d1.podiums
    pole_positions := d1.pole_positions
    reliability := pyRoundQ d1.reliability 3
    consistency := pyRound d1.consistency 3
    average_position := pyRoundQ avg 2
    last_race_position := d1.last_race_position
    last_race_points := d1.last_race_points
    races_completed := d1.races_completed
    races_dnf := d1.races_dnf
    total_races := d1.total_races
    points_history := d1.points_history
    position_history := d1.position_history }

/-- Method `Driver.to_dict`: builds the snapshot, calling `get_average_position`
(which recomputes and stores `average_position`, and is the one raise
point — on `TypeError` nothing is mutated and no dictionary is produced). -/
noncomputable def Driver.to_dict (d : Driver) : Driver × Option DriverDict :=
  (d.get_average_position.1,
   d.get_average_position.2.map (fun avg => dictOf d.get_average_position.1 avg))

/-- The public operations of the component (`Construct` is `initDriver`). -/
inductive Op where
  | addPoints (points : ℚ)
  | setRaceResult (position : Option ℤ) (points : ℚ) (dnf : Bool)
  | addPolePosition
  | serialize

/-- Apply one operation to a driver state.  For the operations that can
raise (`setRaceResult`, `serialize`) the resulting state is the object
state after the call, whether or not it raised. -/
noncomputable def applyOp (d : Driver) : Op → Driver
  | .addPoints p => d.add_points p
  | .setRaceResult pos p dnf => (d.set_race_result pos p dnf).1
  | .addPolePosition => d.add_pole_position
  | .serialize => d.to_dict.1

/-- Run a sequence of operations from a state. -/
noncomputable def runOps (d : Driver) (ops : List Op) : Driver :=
  ops.foldl applyOp d

/-- A `setRaceResult` operation whose position argument is `None` or a
nonnegative integer (`true` for the other operations). -/
def posOk : Op → Bool
  | .setRaceResult (some p) _ _ => decide (0 ≤ p)
  | _ => true

/-! ## Unfolding lemmas for the operations -/

/-- The mean returned by `get_average_position` as a function of the
history (`none` = `TypeError`). -/
def meanOfHistory (l : List (Option ℤ)) : Option ℚ :=
  if l = [] then some 0
  else
    match allSome l with
    | none => none
    | some positions => some ((positions.sum : ℚ) / (positions.length : ℚ))

theorem add_points_def (d : Driver) (p : ℚ) :
    d.add_points p =
      { d with
        season_points := d.season_points + p
        points_history := d.points_history ++ [p] } := rfl

theorem add_pole_position_def (d : Driver) :
    d.add_pole_position = { d with pole_positions := d.pole_positions + 1 } := rfl

theorem calculate_reliability_def (d : Driver) :
    d.calculate_reliability =
      { d with
        reliability :=
          if 0 < d.total_races then (d.races_completed : ℚ) / (d.total_races : ℚ)
          else d.reliability } := by
  unfold Driver.calculate_reliability
  split
  · simp_all
  · ext <;> simp_all

theorem calculate_consistency_def (d : Driver) :
    d.calculate_consistency =
      ({ d with
         consistency := (consistencyOfHistory d.position_history).getD d.consistency },
       (consistencyOfHistory d.position_history).isNone) := by
  unfold Driver.calculate_consistency
  cases h : consistencyOfHistory d.position_history <;> simp [h]

theorem get_average_position_def (d : Driver) :
    d.get_average_position =
      ({ d with
         average_position :=
           (meanOfHistory d.position_history).getD d.average_position },
       meanOfHistory d.position_history) := by
  unfold Driver.get_average_position meanOfHistory
  split
  · simp_all
  · cases h : allSome d.position_history <;> simp [h]

theorem to_dict_fst (d : Driver) : d.to_dict.1 = d.get_average_position.1 := rfl

theorem to_dict_snd (d : Driver) :
    d.to_dict.2 =
      d.get_average_position.2.map
        (fun avg => dictOf d.get_average_position.1 avg) := rfl

/-- Idempotence of `get_average_position`: a second call finds the history
unchanged, returns the same mean and leaves the state fixed. -/
theorem get_average_position_idem (d : Driver) :
    d.get_average_position.1.get_average_position =
      (d.get_average_position.1, d.get_average_position.2) := by
  rw [get_average_position_def, get_average_position_def]
  refine Prod.ext ?_ ?_
  · show ({ d with average_position := _ } : Driver) = _
    ext <;> simp <;>
      cases meanOfHistory d.position_history <;> rfl
  · rfl

/-! ## Field-by-field description of `set_race_result` -/

theorem srr_position_history (d : Driver) (pos : Option ℤ) (pts : ℚ) (dnf : Bool) :
    (d.set_race_result pos pts dnf).1.position_history =
      d.position_history ++ [pos] := by
  simp only [Driver.set_race_result, calculate_consistency_def,
    calculate_reliability_def, add_points_def]
  split <;> split <;> split <;> rfl

theorem srr_total_races (d : Driver) (pos : Option ℤ) (pts : ℚ) (dnf : Bool) :
    (d.set_race_result pos pts dnf).1.total_races = d.total_races + 1 := by
  simp only [Driver.set_race_result, calculate_consistency_def,
    calculate_reliability_def, add_points_def]
  split <;> split <;> split <;> rfl

theorem srr_races_completed (d : Driver) (pos : Option ℤ) (pts : ℚ) (dnf : Bool) :
    (d.set_race_result pos pts dnf).1.races_completed =
      if dnf then d.races_completed else d.races_completed + 1 := by
  simp only [Driver.set_race_result, calculate_consistency_def,
    calculate_reliability_def, add_points_def]
  split <;> split <;> split <;> simp_all

theorem srr_races_dnf (d : Driver) (pos : Option ℤ) (pts : ℚ) (dnf : Bool) :
    (d.set_race_result pos pts dnf).1.races_dnf =
      if dnf then d.races_dnf + 1 else d.races_dnf := by
  simp only [Driver.set_race_result, calculate_consistency_def,
    calculate_reliability_def, add_points_def]
  split <;> split <;> split <;> simp_all

theorem srr_podiums (d : Driver) (pos : Option ℤ) (pts : ℚ) (dnf : Bool) :
    (d.set_race_result pos pts dnf).1.podiums =
      if podiumCheck pos then d.podiums + 1 else d.podiums := by
  simp only [Driver.set_race_result, calculate_consistency_def,
    calculate_reliability_def, add_points_def]
  split <;> split <;> split <;> simp_all

theorem srr_wins (d : Driver) (pos : Option ℤ) (pts : ℚ) (dnf : Bool) :
    (d.set_race_result pos pts dnf).1.wins =
      if winCheck pos then d.wins + 1 else d.wins := by
  simp only [Driver.set_race_result, calculate_consistency_def,
    calculate_reliability_def, add_points_def]
  split <;> split <;> split <;> simp_all

theorem srr_season_points (d : Driver) (pos : Option ℤ) (pts : ℚ) (dnf : Bool) :
    (d.set_race_result pos pts dnf).1.season_points = d.season_points + pts := by
  simp only [Driver.set_race_result, calculate_consistency_def,
    calculate_reliability_def, add_points_def]
  split <;> split <;> split <;> rfl

theorem srr_points_history (d : Driver) (pos : Option ℤ) (pts : ℚ) (dnf : Bool) :
    (d.set_race_result pos pts dnf).1.points_history =
      d.points_history ++ [pts] := by
  simp only [Driver.set_race_result, calculate_consistency_def,
    calculate_reliability_def, add_points_def]
  split <;> split <;> split <;> rfl

theorem srr_pole_positions (d : Driver) (pos : Option ℤ) (pts : ℚ) (dnf : Bool) :
    (d.set_race_result pos pts dnf).1.pole_positions = d.pole_positions := by
  simp only [Driver.set_race_result, calculate_consistency_def,
    calculate_reliability_def, add_points_def]
  split <;> split <;> split <;> rfl

theorem srr_reliability (d : Driver) (pos : Option ℤ) (pts : ℚ) (dnf : Bool) :
    (d.set_race_result pos pts dnf).1.reliability =
      ((if dnf then d.races_completed else d.races_completed + 1 : ℕ) : ℚ) /
        ((d.total_races + 1 : ℕ) : ℚ) := by
  simp only [Driver.set_race_result, calculate_consistency_def,
    calculate_reliability_def, add_points_def]
  split <;> split <;> split <;> simp_all

theorem srr_consistency (d : Driver) (pos : Option ℤ) (pts : ℚ) (dnf : Bool) :
    (d.set_race_result pos pts dnf).1.consistency =
      (consistencyOfHistory (d.position_history ++ [pos])).getD d.consistency := by
  simp only [Driver.set_race_result, calculate_consistency_def,
    calculate_reliability_def, add_points_def]
  split <;> split <;> split <;> rfl

theorem srr_last_race_position (d : Driver) (pos : Option ℤ) (pts : ℚ) (dnf : Bool) :
    (d.set_race_result pos pts dnf).1.last_race_position = pos := by
  simp only [Driver.set_race_result, calculate_consistency_def,
    calculate_reliability_def, add_points_def]
  split <;> split <;> split <;> rfl

theorem srr_raised (d : Driver) (pos : Option ℤ) (pts : ℚ) (dnf : Bool) :
    (d.set_race_result pos pts dnf).2 =
      (consistencyOfHistory (d.position_history ++ [pos])).isNone := by
  simp only [Driver.set_race_result, calculate_consistency_def,
    calculate_reliability_def, add_points_def]
  split <;> split <;> split <;> rfl

/-! ## Properties of the consistency computation -/

theorem consistencyOfHistory_short (l : List (Option ℤ)) (h : l.length < 2) :
    consistencyOfHistory l = some 0 := by
  unfold consistencyOfHistory
  simp [h]

theorem allSome_length (l : List (Option ℤ)) (xs : List ℤ)
    (h : allSome l = some xs) : xs.length = l.length := by
  induction l generalizing xs with
  | nil => simp [allSome] at h; subst h; rfl
  | cons a t ih =>
    cases a with
    | none => simp [allSome] at h
    | some x =>
      simp [allSome] at h
      obtain ⟨ys, hys, rfl⟩ := h
      simp [ih ys hys]

theorem allSome_mem (l : List (Option ℤ)) (xs : List ℤ)
    (h : allSome l = some xs) (x : ℤ) (hx : x ∈ xs) : some x ∈ l := by
  induction l generalizing xs with
  | nil => simp [allSome] at h; subst h; simp at hx
  | cons a t ih =>
    cases a with
    | none => simp [allSome] at h
    | some y =>
      simp [allSome] at h
      obtain ⟨ys, hys, rfl⟩ := h
      rcases List.mem_cons.mp hx with h1 | h2
      · subst h1; exact List.mem_cons_self _ _
      · exact List.mem_cons_of_mem _ (ih ys hys h2)

/-- Whenever `calculate_consistency` returns a value without raising, and
every recorded position is `None` or nonnegative, the value lies in
`[0, 1]`. -/
theorem consistencyOfHistory_bounds (l : List (Option ℤ))
    (hpos : ∀ x ∈ l, ∀ p : ℤ, x = some p → 0 ≤ p) (c : ℝ)
    (hc : consistencyOfHistory l = some c) : 0 ≤ c ∧ c ≤ 1 := by
  unfold consistencyOfHistory at hc
  split at hc
  · simp only [Option.some.injEq] at hc
    subst hc
    exact ⟨le_refl 0, zero_le_one⟩
  · cases hall : allSome l with
    | none => rw [hall] at hc; simp at hc
    | some xs =>
      rw [hall] at hc
      simp only at hc
      split at hc
      · simp only [Option.some.injEq] at hc
        subst hc
        exact ⟨le_refl 0, zero_le_one⟩
      · rename_i hmean0
        simp only [Option.some.injEq] at hc
        subst hc
        have hxs : ∀ y ∈ xs, (0 : ℤ) ≤ y := fun y hy =>
          hpos (some y) (allSome_mem l xs hall y hy) y rfl
        have hsum : (0 : ℚ) ≤ (xs.sum : ℚ) := by
          have hz : (0 : ℤ) ≤ xs.sum := List.sum_nonneg hxs
          exact_mod_cast hz
        have hmean : (0 : ℚ) ≤ (xs.sum : ℚ) / (xs.length : ℚ) :=
          div_nonneg hsum (by positivity)
        have hmeanpos : (0 : ℚ) < (xs.sum : ℚ) / (xs.length : ℚ) :=
          lt_of_le_of_ne hmean (Ne.symm hmean0)
        have hmeanR : (0 : ℝ) < (((xs.sum : ℚ) / (xs.length : ℚ) : ℚ) : ℝ) := by
          exact_mod_cast hmeanpos
        have hcv : (0 : ℝ) ≤
            Real.sqrt ((((xs.map (fun x => ((x : ℚ) - (xs.sum : ℚ) / (xs.length : ℚ)) ^ 2)).sum /
              (xs.length : ℚ) : ℚ) : ℝ)) /
              (((xs.sum : ℚ) / (xs.length : ℚ) : ℚ) : ℝ) / 10 :=
          div_nonneg (div_nonneg (Real.sqrt_nonneg _) hmeanR.le) (by norm_num)
        constructor
        · exact le_max_left _ _
        · exact max_le zero_le_one (by linarith)

/-- Positions 1 and 5: mean 3, population variance 4, standard deviation 2,
coefficient of variation 2/3, consistency 14/15. -/
theorem consistencyOfHistory_one_five :
    consistencyOfHistory [some 1, some 5] = some (14 / 15) := by
  unfold consistencyOfHistory
  simp [allSome]
  norm_num
  have h2 : Real.sqrt 8 / Real.sqrt 2 = 2 := by
    rw [← Real.sqrt_div (by norm_num : (0 : ℝ) ≤ 8)]
    norm_num
    rw [show (4 : ℝ) = 2 ^ 2 by norm_num]
    exact Real.sqrt_sq (by norm_num)
  rw [h2, max_eq_right (by norm_num)]
  norm_num

/-- Positions -1 and -3: mean -2, variance 1, standard deviation 1,
coefficient of variation -1/2, consistency 21/20 — above 1. -/
theorem consistencyOfHistory_neg :
    consistencyOfHistory [some (-1), some (-3)] = some (21 / 20) := by
  unfold consistencyOfHistory
  simp [allSome]
  norm_num

/-! ## Invariants of reachable states -/

/-- The bookkeeping invariant maintained by every operation. -/
def StateInv (d : Driver) : Prop :=
  d.total_races = d.races_completed + d.races_dnf ∧
  d.wins ≤ d.podiums ∧
  d.podiums ≤ d.total_races ∧
  d.position_history.length = d.total_races ∧
  d.season_points = d.points_history.sum ∧
  (d.total_races = 0 → d.reliability = 0) ∧
  (0 < d.total_races →
    d.reliability = (d.races_completed : ℚ) / (d.total_races : ℚ)) ∧
  (d.position_history.length < 2 → d.consistency = 0)

theorem winCheck_podiumCheck (pos : Option ℤ) (h : winCheck pos = true) :
    podiumCheck pos = true := by
  cases pos with
  | none => simp [winCheck] at h
  | some p =>
    simp [winCheck] at h
    subst h
    simp [podiumCheck]

theorem stateInv_init (id : ℤ) (name : String) (number : ℤ) (team : String)
    (nationality : String) (price : ℚ) (season : Option ℤ) :
    StateInv (initDriver id name number team nationality price season) := by
  simp [StateInv, initDriver]

theorem stateInv_applyOp (d : Driver) (op : Op) (h : StateInv d) :
    StateInv (applyOp d op) := by
  obtain ⟨h1, h2, h3, h4, h5, h6, h7, h8⟩ := h
  cases op with
  | addPoints p =>
    refine ⟨?_, ?_, ?_, ?_, ?_, ?_, ?_, ?_⟩ <;>
      simp_all [applyOp, add_points_def]
  | addPolePosition =>
    refine ⟨?_, ?_, ?_, ?_, ?_, ?_, ?_, ?_⟩ <;>
      simp_all [applyOp, add_pole_position_def]
  | serialize =>
    refine ⟨?_, ?_, ?_, ?_, ?_, ?_, ?_, ?_⟩ <;>
      simp_all [applyOp, to_dict_fst, get_average_position_def]
  | setRaceResult pos pts dnf =>
    refine ⟨?_, ?_, ?_, ?_, ?_, ?_, ?_, ?_⟩
    · simp only [applyOp, srr_total_races, srr_races_completed, srr_races_dnf]
      cases dnf <;> simp <;> omega
    · simp only [applyOp, srr_wins, srr_podiums]
      by_cases hw : winCheck pos = true
      · simp [hw, winCheck_podiumCheck pos hw]; omega
      · simp only [Bool.not_eq_true] at hw
        simp [hw]
        split <;> omega
    · simp only [applyOp, srr_podiums, srr_total_races]
      split <;> omega
    · simp only [applyOp, srr_position_history, srr_total_races,
        List.length_append]
      simp [h4]
    · simp only [applyOp, srr_season_points, srr_points_history]
      simp [h5, List.sum_append]
    · simp only [applyOp, srr_total_races]
      omega
    · intro _
      simp only [applyOp, srr_reliability, srr_races_completed,
        srr_total_races]
    · intro hlen
      have hl : (d.position_history ++ [pos]).length < 2 := by
        simpa [applyOp, srr_position_history] using hlen
      simp only [applyOp]
      rw [srr_consistency, consistencyOfHistory_short _ hl]
      rfl

theorem stateInv_runOps (d : Driver) (ops : List Op) (h : StateInv d) :
    StateInv (runOps d ops) := by
  induction ops generalizing d with
  | nil => exact h
  | cons op rest ih => exact ih (applyOp d op) (stateInv_applyOp d op h)

/-- Every position in the recorded history is `None` or nonnegative. -/
def NonnegHistory (d : Driver) : Prop :=
  ∀ x ∈ d.position_history, ∀ p : ℤ, x = some p → 0 ≤ p

/-- Under `posOk` operations the history stays `None`-or-nonnegative and
the stored consistency stays in `[0, 1]`. -/
theorem consRange_applyOp (d : Driver) (op : Op) (hop : posOk op = true)
    (hh : NonnegHistory d) (hc : 0 ≤ d.consistency ∧ d.consistency ≤ 1) :
    NonnegHistory (applyOp d op) ∧
      0 ≤ (applyOp d op).consistency ∧ (applyOp d op).consistency ≤ 1 := by
  cases op with
  | addPoints p => exact ⟨by simpa [applyOp, add_points_def] using hh, by
      simpa [applyOp, add_points_def] using hc⟩
  | addPolePosition => exact ⟨by simpa [applyOp, add_pole_position_def] using hh, by
      simpa [applyOp, add_pole_position_def] using hc⟩
  | serialize => exact ⟨by
      simpa [applyOp, to_dict_fst, get_average_position_def] using hh, by
      simpa [applyOp, to_dict_fst, get_average_position_def] using hc⟩
  | setRaceResult pos pts dnf =>
    have hh' : NonnegHistory (applyOp d (Op.setRaceResult pos pts dnf)) := by
      intro x hx p hp
      rw [applyOp, srr_position_history] at hx
      rcases List.mem_append.mp hx with hx1 | hx2
      · exact hh x hx1 p hp
      · have hxpos : x = pos := by simpa using hx2
        subst hxpos
        subst hp
        simpa [posOk] using hop
    refine ⟨hh', ?_⟩
    have hh2 : ∀ x ∈ d.position_history ++ [pos], ∀ p : ℤ, x = some p → 0 ≤ p := by
      intro x hx p hp
      refine hh' x ?_ p hp
      rw [applyOp, srr_position_history]
      exact hx
    simp only [applyOp]
    rw [srr_consistency]
    cases hcons : consistencyOfHistory (d.position_history ++ [pos]) with
    | none => simpa using hc
    | some c =>
      simpa using consistencyOfHistory_bounds _ hh2 c hcons

theorem consRange_runOps (d : Driver) (ops : List Op)
    (hops : ∀ op ∈ ops, posOk op = true)
    (hh : NonnegHistory d) (hc : 0 ≤ d.consistency ∧ d.consistency ≤ 1) :
    0 ≤ (runOps d ops).consistency ∧ (runOps d ops).consistency ≤ 1 := by
  induction ops generalizing d with
  | nil => exact hc
  | cons op rest ih =>
    have h1 := consRange_applyOp d op (hops op (List.mem_cons_self _ _)) hh hc
    exact ih (applyOp d op) (fun o ho => hops o (List.mem_cons_of_mem _ ho))
      h1.1 h1.2

/-! ## The claims -/

/-- A freshly constructed tracker, used as the concrete input of the
closed theorems below. -/
def freshDriver : Driver := initDriver 1 "" 33 "" "" 10 none

/-- C1: the claim states that no sequence of operations raises.  The code
violates it: on a fresh tracker, `SetRaceResult(position=2, points=18)`
completes without raising, but the following
`SetRaceResult(position=None, points=0, dnf=true)` raises `TypeError`
(the flag of the model): `calculate_consistency` sums a position history
of length 2 containing `None`. -/
theorem c1_none_position_raises :
    (freshDriver.set_race_result (some 2) 18 false).2 = false ∧
    ((freshDriver.set_race_result (some 2) 18 false).1.set_race_result
      none 0 true).2 = true := by
  decide

/-- C2: Scenario B.  The second call raises `TypeError` (flag `true`)
instead of completing; the counters it mutated before the raise
nevertheless hold the values the claim lists: `total_races = 2`,
`races_completed = 1`, `races_dnf = 1`, `reliability = 1/2`,
`podiums = 1`, `wins = 0`. -/
theorem c2_scenario_b :
    ((freshDriver.set_race_result (some 2) 18 false).1.set_race_result
      none 0 true).2 = true ∧
    ((freshDriver.set_race_result (some 2) 18 false).1.set_race_result
      none 0 true).1.total_races = 2 ∧
    ((freshDriver.set_race_result (some 2) 18 false).1.set_race_result
      none 0 true).1.races_completed = 1 ∧
    ((freshDriver.set_race_result (some 2) 18 false).1.set_race_result
      none 0 true).1.races_dnf = 1 ∧
    ((freshDriver.set_race_result (some 2) 18 false).1.set_race_result
      none 0 true).1.reliability = 1 / 2 ∧
    ((freshDriver.set_race_result (some 2) 18 false).1.set_race_result
      none 0 true).1.podiums = 1 ∧
    ((freshDriver.set_race_result (some 2) 18 false).1.set_race_result
      none 0 true).1.wins = 0 := by
  refine ⟨by decide, by decide, by decide, by decide, ?_, by decide, by decide⟩
  rw [srr_reliability]
  have h1 : (freshDriver.set_race_result (some 2) 18 false).1.races_completed = 1 := by
    decide
  have h2 : (freshDriver.set_race_result (some 2) 18 false).1.total_races = 1 := by
    decide
  rw [h2]
  simp [h1]

/-- C4 counterexample: the claim states that any out-of-range position
(0 or negative) leaves `podiums` unchanged, but a fresh tracker given
`SetRaceResult(position=-1, points=0)` ends with `podiums = 1`: the
truthiness guard `position and position <= 3` lets every negative
position through. -/
theorem c4_counterexample :
    ((initDriver 1 "" 33 "" "" 10 none).set_race_result (some (-1)) 0
      false).1.podiums = 1 ∧
    (initDriver 1 "" 33 "" "" 10 none).podiums = 0 := by
  decide

/-- C4 amended: for a `SetRaceResult` call with out-of-range position
`p ≤ 0` the win check is false and `wins` is unchanged; the podium check
is false only for `p = 0` (falsy in Python) — for negative `p` it
evaluates true and `podiums` is incremented; the input is not rejected
and the rest of the update proceeds (`total_races` grows, the position is
stored). -/
theorem c4_out_of_range (d : Driver) (pts : ℚ) (dnf : Bool) (p : ℤ)
    (hp : p ≤ 0) :
    (d.set_race_result (some p) pts dnf).1.wins = d.wins ∧
    (d.set_race_result (some p) pts dnf).1.podiums =
      (if p = 0 then d.podiums else d.podiums + 1) ∧
    (d.set_race_result (some p) pts dnf).1.total_races = d.total_races + 1 ∧
    (d.set_race_result (some p) pts dnf).1.last_race_position = some p := by
  refine ⟨?_, ?_, srr_total_races d (some p) pts dnf,
    srr_last_race_position d (some p) pts dnf⟩
  · rw [srr_wins]
    have hw : winCheck (some p) = false := by
      simp [winCheck]
      omega
    simp [hw]
  · rw [srr_podiums]
    by_cases h0 : p = 0
    · subst h0
      simp [podiumCheck]
    · have hpc : podiumCheck (some p) = true := by
        simp [podiumCheck]
        exact ⟨h0, by omega⟩
      simp [hpc, h0]

/-- C4 witness: at `p = -1` on a fresh tracker the amended claim gives
`wins` unchanged, `podiums` incremented to 1, `total_races = 1` and the
position stored. -/
theorem c4_witness :
    ((initDriver 2 "" 44 "" "" 5 none).set_race_result (some (-1)) 0
      false).1.wins = (initDriver 2 "" 44 "" "" 5 none).wins ∧
    ((initDriver 2 "" 44 "" "" 5 none).set_race_result (some (-1)) 0
      false).1.podiums = (initDriver 2 "" 44 "" "" 5 none).podiums + 1 ∧
    ((initDriver 2 "" 44 "" "" 5 none).set_race_result (some (-1)) 0
      false).1.total_races = (initDriver 2 "" 44 "" "" 5 none).total_races + 1 ∧
    ((initDriver 2 "" 44 "" "" 5 none).set_race_result (some (-1)) 0
      false).1.last_race_position = some (-1) := by
  have h := c4_out_of_range (initDriver 2 "" 44 "" "" 5 none) 0 false (-1)
    (by decide)
  simpa using h

/-- C5: on a fresh tracker, recording positions 1 then 5 (any points, no
DNF) gives consistency exactly `max(0, 1 - (2/3)/10) = 14/15` — mean 3,
population variance 4, standard deviation 2, coefficient of variation
2/3. -/
theorem c5_positions_one_five (i num : ℤ) (nm tm na : String) (pr : ℚ)
    (se : Option ℤ) (p1 p2 : ℚ) :
    (((initDriver i nm num tm na pr se).set_race_result (some 1) p1
        false).1.set_race_result (some 5) p2 false).1.consistency = 14 / 15 := by
  rw [srr_consistency, srr_position_history]
  have h0 : (initDriver i nm num tm na pr se).position_history = [] := rfl
  rw [h0]
  simp [consistencyOfHistory_one_five]

/-- C3 counterexample: the claim includes out-of-range positions, but with
the reachable history `[-1, -3]` (two completed races at unvalidated
negative positions) the mean is negative, the coefficient of variation is
negative, and the stored consistency is `21/20 > 1`. -/
theorem c3_counterexample :
    1 < (((initDriver 1 "" 33 "" "" 10 none).set_race_result (some (-1)) 0
        false).1.set_race_result (some (-3)) 0 false).1.consistency := by
  rw [srr_consistency, srr_position_history]
  have h0 : (initDriver 1 "" 33 "" "" 10 none).position_history = [] := rfl
  rw [h0]
  simp [consistencyOfHistory_neg]
  norm_num

/-- C3 amended: in every state reachable by operations whose positions are
`None` or nonnegative integers (in particular the specified optional
positive integers), consistency lies in `[0, 1]`; and — unconditionally —
whenever fewer than 2 positions are recorded, consistency equals 0. -/
theorem c3_consistency_range (i num : ℤ) (nm tm na : String) (pr : ℚ)
    (se : Option ℤ) (ops : List Op) :
    ((∀ op ∈ ops, posOk op = true) →
      0 ≤ (runOps (initDriver i nm num tm na pr se) ops).consistency ∧
        (runOps (initDriver i nm num tm na pr se) ops).consistency ≤ 1) ∧
    ((runOps (initDriver i nm num tm na pr se) ops).position_history.length < 2 →
      (runOps (initDriver i nm num tm na pr se) ops).consistency = 0) := by
  constructor
  · intro hops
    refine consRange_runOps _ ops hops ?_ ⟨le_refl 0, zero_le_one⟩
    intro x hx
    simp [initDriver] at hx
  · exact (stateInv_runOps _ ops
      (stateInv_init i nm num tm na pr se)).2.2.2.2.2.2.2

/-- C3 witness: one completed race at position 1 — all positions in range,
consistency 0 (fewer than 2 data points), inside `[0, 1]`. -/
theorem c3_witness :
    (0 ≤ (runOps (initDriver 1 "" 33 "" "" 10 none)
        [Op.setRaceResult (some 1) 25 false]).consistency ∧
      (runOps (initDriver 1 "" 33 "" "" 10 none)
        [Op.setRaceResult (some 1) 25 false]).consistency ≤ 1) ∧
    (runOps (initDriver 1 "" 33 "" "" 10 none)
      [Op.setRaceResult (some 1) 25 false]).consistency = 0 :=
  ⟨(c3_consistency_range 1 33 "" "" "" 10 none
      [Op.setRaceResult (some 1) 25 false]).1 (by decide),
   (c3_consistency_range 1 33 "" "" "" 10 none
      [Op.setRaceResult (some 1) 25 false]).2 (by decide)⟩

/-- C6: after every operation sequence, reliability equals
`races_completed / total_races` when `total_races > 0` and is 0 (its
initial value, never recomputed) when `total_races = 0`; it lies in
`[0, 1]`, equals 1 when there is no DNF and at least one race, and
`calculate_reliability` leaves a state with `total_races = 0` unchanged. -/
theorem c6_reliability (i num : ℤ) (nm tm na : String) (pr : ℚ)
    (se : Option ℤ) (ops : List Op) :
    (0 < (runOps (initDriver i nm num tm na pr se) ops).total_races →
      (runOps (initDriver i nm num tm na pr se) ops).reliability =
        ((runOps (initDriver i nm num tm na pr se) ops).races_completed : ℚ) /
          ((runOps (initDriver i nm num tm na pr se) ops).total_races : ℚ)) ∧
    ((runOps (initDriver i nm num tm na pr se) ops).total_races = 0 →
      (runOps (initDriver i nm num tm na pr se) ops).reliability = 0) ∧
    0 ≤ (runOps (initDriver i nm num tm na pr se) ops).reliability ∧
    (runOps (initDriver i nm num tm na pr se) ops).reliability ≤ 1 ∧
    ((runOps (initDriver i nm num tm na pr se) ops).races_dnf = 0 ∧
        0 < (runOps (initDriver i nm num tm na pr se) ops).total_races →
      (runOps (initDriver i nm num tm na pr se) ops).reliability = 1) ∧
    (∀ d : Driver, d.total_races = 0 → d.calculate_reliability = d) := by
  obtain ⟨h1, h2, h3, h4, h5, h6, h7, h8⟩ :=
    stateInv_runOps _ ops (stateInv_init i nm num tm na pr se)
  have hrange : 0 ≤ (runOps (initDriver i nm num tm na pr se) ops).reliability ∧
      (runOps (initDriver i nm num tm na pr se) ops).reliability ≤ 1 := by
    rcases Nat.eq_zero_or_pos
      (runOps (initDriver i nm num tm na pr se) ops).total_races with hz | hp
    · rw [h6 hz]
      exact ⟨le_refl 0, zero_le_one⟩
    · rw [h7 hp]
      constructor
      · positivity
      · rw [div_le_one (by exact_mod_cast hp)]
        exact_mod_cast by omega
  refine ⟨h7, h6, hrange.1, hrange.2, ?_, ?_⟩
  · rintro ⟨hdnf, hp⟩
    rw [h7 hp]
    have hct : (runOps (initDriver i nm num tm na pr se) ops).races_completed =
        (runOps (initDriver i nm num tm na pr se) ops).total_races := by omega
    rw [hct]
    refine div_self ?_
    have hq : (0 : ℚ) <
        ((runOps (initDriver i nm num tm na pr se) ops).total_races : ℚ) := by
      exact_mod_cast hp
    exact ne_of_gt hq
  · intro d hd
    unfold Driver.calculate_reliability
    simp [hd]

/-- C6 witness: after one completed race the reliability is the quotient
and equals 1; a fresh tracker is left unchanged by
`calculate_reliability`. -/
theorem c6_witness :
    (runOps (initDriver 1 "" 33 "" "" 10 none)
        [Op.setRaceResult (some 1) 25 false]).reliability =
      ((runOps (initDriver 1 "" 33 "" "" 10 none)
          [Op.setRaceResult (some 1) 25 false]).races_completed : ℚ) /
        ((runOps (initDriver 1 "" 33 "" "" 10 none)
          [Op.setRaceResult (some 1) 25 false]).total_races : ℚ) ∧
    (runOps (initDriver 1 "" 33 "" "" 10 none)
      [Op.setRaceResult (some 1) 25 false]).reliability = 1 ∧
    (initDriver 3 "" 7 "" "" 6 none).calculate_reliability =
      initDriver 3 "" 7 "" "" 6 none :=
  ⟨(c6_reliability 1 33 "" "" "" 10 none
      [Op.setRaceResult (some 1) 25 false]).1 (by decide),
   (c6_reliability 1 33 "" "" "" 10 none
      [Op.setRaceResult (some 1) 25 false]).2.2.2.2.1 ⟨by decide, by decide⟩,
   (c6_reliability 1 33 "" "" "" 10 none
      [Op.setRaceResult (some 1) 25 false]).2.2.2.2.2 _ (by decide)⟩

/-- C7: `total_races = races_completed + races_dnf` after every operation
sequence, and all three counters start at 0. -/
theorem c7_race_count_partition (i num : ℤ) (nm tm na : String) (pr : ℚ)
    (se : Option ℤ) (ops : List Op) :
    (runOps (initDriver i nm num tm na pr se) ops).total_races =
      (runOps (initDriver i nm num tm na pr se) ops).races_completed +
        (runOps (initDriver i nm num tm na pr se) ops).races_dnf ∧
    (initDriver i nm num tm na pr se).total_races = 0 ∧
    (initDriver i nm num tm na pr se).races_completed = 0 ∧
    (initDriver i nm num tm na pr se).races_dnf = 0 :=
  ⟨(stateInv_runOps _ ops (stateInv_init i nm num tm na pr se)).1, rfl, rfl, rfl⟩

/-- C8: in every reachable state `wins ≤ podiums ≤ total_races`; a
`SetRaceResult` call changes `podiums` only when the reported position is
some `p ≤ 3`, and changes `wins` only when the reported position is 1. -/
theorem c8_wins_podiums (i num : ℤ) (nm tm na : String) (pr : ℚ)
    (se : Option ℤ) (ops : List Op) (d : Driver) (pos : Option ℤ) (pts : ℚ)
    (dnf : Bool) :
    (runOps (initDriver i nm num tm na pr se) ops).wins ≤
      (runOps (initDriver i nm num tm na pr se) ops).podiums ∧
    (runOps (initDriver i nm num tm na pr se) ops).podiums ≤
      (runOps (initDriver i nm num tm na pr se) ops).total_races ∧
    ((d.set_race_result pos pts dnf).1.podiums ≠ d.podiums →
      ∃ p : ℤ, pos = some p ∧ p ≤ 3) ∧
    ((d.set_race_result pos pts dnf).1.wins ≠ d.wins → pos = some 1) := by
  obtain ⟨h1, h2, h3, h4, h5, h6, h7, h8⟩ :=
    stateInv_runOps _ ops (stateInv_init i nm num tm na pr se)
  refine ⟨h2, h3, ?_, ?_⟩
  · intro hch
    rw [srr_podiums] at hch
    by_cases hpc : podiumCheck pos = true
    · cases pos with
      | none => simp [podiumCheck] at hpc
      | some p =>
        refine ⟨p, rfl, ?_⟩
        simp [podiumCheck] at hpc
        exact hpc.2
    · simp [hpc] at hch
  · intro hch
    rw [srr_wins] at hch
    by_cases hw : winCheck pos = true
    · simpa [winCheck] using hw
    · simp [hw] at hch

/-- C8 witness: a win at position 1 on a fresh tracker changes both
counters, and the implications give the position back; the invariant holds
after one race. -/
theorem c8_witness :
    (runOps (initDriver 1 "" 33 "" "" 10 none)
      [Op.setRaceResult (some 1) 25 false]).wins ≤
      (runOps (initDriver 1 "" 33 "" "" 10 none)
        [Op.setRaceResult (some 1) 25 false]).podiums ∧
    (runOps (initDriver 1 "" 33 "" "" 10 none)
      [Op.setRaceResult (some 1) 25 false]).podiums ≤
      (runOps (initDriver 1 "" 33 "" "" 10 none)
        [Op.setRaceResult (some 1) 25 false]).total_races ∧
    (∃ p : ℤ, (some 1 : Option ℤ) = some p ∧ p ≤ 3) ∧
    (some 1 : Option ℤ) = some 1 := by
  have h := c8_wins_podiums 1 33 "" "" "" 10 none
    [Op.setRaceResult (some 1) 25 false] freshDriver (some 1) 25 false
  exact ⟨h.1, h.2.1, h.2.2.1 (by decide), h.2.2.2 (by decide)⟩

/-- C9: `Serialize` mutates nothing but the cached `average_position`
field (on a raise it mutates nothing at all, which the equation also
covers), and a second call with no intervening mutation returns the
identical snapshot and leaves the state fixed. -/
theorem c9_serialize_frame (d : Driver) :
    d.to_dict.1 = { d with average_position := d.to_dict.1.average_position } ∧
    d.to_dict.1.to_dict.1 = d.to_dict.1 ∧
    d.to_dict.1.to_dict.2 = d.to_dict.2 := by
  refine ⟨?_, ?_, ?_⟩
  · rw [to_dict_fst, get_average_position_def]
  · simp only [to_dict_fst]
    exact congrArg Prod.fst (get_average_position_idem d)
  · simp only [to_dict_snd, to_dict_fst, get_average_position_idem]

/-- C10: in every reachable state `season_points` equals the sum of
`points_history`; construction zeroes both; `add_points` adds the value to
the total and appends it to the history, `set_race_result` changes them
exactly through its `add_points` call, and `add_pole_position` and
`Serialize` touch neither. -/
theorem c10_points_ledger (i num : ℤ) (nm tm na : String) (pr : ℚ)
    (se : Option ℤ) (ops : List Op) :
    (runOps (initDriver i nm num tm na pr se) ops).season_points =
      (runOps (initDriver i nm num tm na pr se) ops).points_history.sum ∧
    (initDriver i nm num tm na pr se).season_points = 0 ∧
    (initDriver i nm num tm na pr se).points_history = ([] : List ℚ) ∧
    (∀ d : Driver, ∀ p : ℚ,
      (d.add_points p).season_points = d.season_points + p ∧
      (d.add_points p).points_history = d.points_history ++ [p]) ∧
    (∀ d : Driver, ∀ pos : Option ℤ, ∀ pts : ℚ, ∀ dnf : Bool,
      (d.set_race_result pos pts dnf).1.season_points = d.season_points + pts ∧
      (d.set_race_result pos pts dnf).1.points_history =
        d.points_history ++ [pts]) ∧
    (∀ d : Driver, d.add_pole_position.season_points = d.season_points ∧
      d.add_pole_position.points_history = d.points_history) ∧
    (∀ d : Driver, d.to_dict.1.season_points = d.season_points ∧
      d.to_dict.1.points_history = d.points_history) := by
  refine ⟨(stateInv_runOps _ ops (stateInv_init i nm num tm na pr se)).2.2.2.2.1,
    rfl, rfl, ?_, ?_, ?_, ?_⟩
  · intro d p
    exact ⟨rfl, rfl⟩
  · intro d pos pts dnf
    exact ⟨srr_season_points d pos pts dnf, srr_points_history d pos pts dnf⟩
  · intro d
    exact ⟨rfl, rfl⟩
  · intro d
    constructor <;> simp [to_dict_fst, get_average_position_def]

end FantasyF1
